import Mathlib

/-!
Verification of the run-context propagation core (`src/prefect/context.py`).

The source builds scoped, per-execution-unit context data on top of Python
`contextvars.ContextVar`:

* `ContextModel` is a frozen pydantic model (`allow_mutation = False`,
  `extra = "forbid"`) with `__enter__` storing the token from
  `self.__var__.set(self)` into the single attribute slot `__token`, and
  `__exit__` calling `self.__var__.reset(getattr(self, "__token"))`.
* `RunContext` adds `start_time` (filled at construction by the field default
  `pendulum.now("UTC")`); `FlowRunContext`, `TaskRunContext`, `TagsContext`
  add their fields and each declares its own `ContextVar`.
* `get_run_context()` prefers `TaskRunContext.get()` over
  `FlowRunContext.get()` and raises when neither is bound.

The embedding below models one execution unit.  A `ContextVar` is a
`CtxVar`: its current (optional) value, a fresh-token counter, and the list
of token ids that have already been consumed by `reset`.  This mirrors the
CPython semantics the source relies on: `set` returns a token carrying the
previous value, and `reset` raises exactly when the token was already used
(it performs no LIFO / topmost-token check).  Errors are explicit `Except`
values; opaque collaborator handles (flow, client, executor, futures,
states) are represented by `Nat` identifiers, `DateTime` by a `Nat` clock,
and Python `set[str]` by `List String`.
-/

namespace PrefectCtx

/-- Error classes surfaced by the context core: `ConfigurationError` for
pydantic construction/mutation violations, `NoActiveRunError` for the
resolver's "No run context available" `RuntimeError`, `TokenReuseError` for
`ContextVar.reset` on an already-used token, and `AttributeError` for
`__exit__` on an instance whose `__token` slot was never set. -/
inductive CtxError
  | ConfigurationError
  | NoActiveRunError
  | TokenReuseError
  | AttributeError
deriving DecidableEq, Repr

/-- A `contextvars` token: the id identifying this `set` call and the value
that was current immediately before it (`old_value`). -/
structure Token (V : Type) where
  id : Nat
  oldValue : Option V
deriving DecidableEq, Repr

/-- One `ContextVar` as seen by a single execution unit: the currently bound
value (if any), the id the next `set` will hand out, and the ids of tokens
already consumed by `reset`. -/
structure CtxVar (V : Type) where
  current : Option V
  nextId : Nat
  used : List Nat
deriving DecidableEq, Repr

/-- `ContextVar.set(value)`: bind `value` and return a fresh token recording
the previous binding. -/
def CtxVar.set (s : CtxVar V) (v : V) : Token V × CtxVar V :=
  (⟨s.nextId, s.current⟩, ⟨some v, s.nextId + 1, s.used⟩)

/-- `ContextVar.reset(token)`: raises iff the token has already been used;
otherwise restores the token's saved value and marks the token used.  (As in
CPython, there is no check that the token is the most recently issued one.) -/
def CtxVar.reset (s : CtxVar V) (t : Token V) : Except CtxError (CtxVar V) :=
  if t.id ∈ s.used then .error .TokenReuseError
  else .ok ⟨t.oldValue, s.nextId, t.id :: s.used⟩

/-- `ContextModel.get()` = `cls.__var__.get(None)`: the bound value or none. -/
def CtxVar.get (s : CtxVar V) : Option V :=
  s.current

/-- Bookkeeping invariant of a `CtxVar`: every consumed token id was issued
before the next fresh id. Holds for a fresh var and is preserved by
`set`/`reset`. -/
def CtxVar.inv (s : CtxVar V) : Prop :=
  ∀ id ∈ s.used, id < s.nextId

instance (s : CtxVar V) : Decidable s.inv := by
  unfold CtxVar.inv; infer_instance

/-- A `ContextModel` instance: its (frozen) field data plus the one `__token`
attribute slot written by `object.__setattr__` in `__enter__`. -/
structure ContextInstance (V : Type) where
  value : V
  token : Option (Token V)
deriving DecidableEq, Repr

/-- `ContextModel.__enter__`: `self.__var__.set(self)` and store the token in
the instance's single `__token` slot (overwriting any previous token). -/
def ContextInstance.enter (inst : ContextInstance V) (s : CtxVar V) :
    ContextInstance V × CtxVar V :=
  ({ inst with token := some (s.set inst.value).1 }, (s.set inst.value).2)

/-- `ContextModel.__exit__(*_)`: reset the var with the stored token.  The
exception information passed by the `with` statement is ignored (`*_`), so
the behaviour is identical on the normal, raising and cancelled paths. -/
def ContextInstance.exit (inst : ContextInstance V) (s : CtxVar V) :
    Except CtxError (CtxVar V) :=
  match inst.token with
  | none => .error .AttributeError
  | some t => s.reset t

/-- `RunContext` data: `start_time` (a UTC instant, modelled as a `Nat`
clock reading). -/
structure RunContextData where
  start_time : Nat
deriving DecidableEq, Repr

/-- `FlowRunContext` data: the `RunContext` field plus flow descriptor, run
id, client and executor handles, the accumulating collections and the two
optional handles, with the source's defaults (`[]`, `[]`, `None`, `None`). -/
structure FlowRunContextData where
  start_time : Nat
  flow : Nat
  flow_run_id : Nat
  client : Nat
  executor : Nat
  task_run_futures : List Nat
  subflow_states : List Nat
  sync_portal : Option Nat
  timeout_scope : Option Nat
deriving DecidableEq, Repr

/-- `TaskRunContext` data: the `RunContext` field plus task descriptor, task
run id, parent flow run id and client handle. -/
structure TaskRunContextData where
  start_time : Nat
  task : Nat
  task_run_id : Nat
  flow_run_id : Nat
  client : Nat
deriving DecidableEq, Repr

/-- `TagsContext` data: the current tag set (Python `set[str]`, modelled as a
list of strings; only emptiness matters to the claims below). -/
structure TagsContextData where
  current_tags : List String
deriving DecidableEq, Repr

/-- `TagsContext.get()` override: `cls.__var__.get(TagsContext())` — the
bound instance if any, otherwise a fresh empty `TagsContext`, never `None`. -/
def TagsContext.get (s : CtxVar TagsContextData) : TagsContextData :=
  s.current.getD ⟨[]⟩

/-- `get_run_context()`: return the bound `TaskRunContext` if any, else the
bound `FlowRunContext`, else raise (`NoActiveRunError`).  A bound pydantic
model instance is always truthy, so `if task_run_ctx:` succeeds exactly when
the var is bound. -/
def get_run_context (taskVar : CtxVar TaskRunContextData)
    (flowVar : CtxVar FlowRunContextData) :
    Except CtxError (TaskRunContextData ⊕ FlowRunContextData) :=
  match taskVar.get with
  | some t => .ok (Sum.inl t)
  | none =>
    match flowVar.get with
    | some f => .ok (Sum.inr f)
    | none => .error .NoActiveRunError

/-- Whether a resolver result is the error case. -/
def resolverFailed (r : Except CtxError (TaskRunContextData ⊕ FlowRunContextData)) :
    Bool :=
  match r with
  | .error _ => true
  | .ok _ => false

/-- A fresh execution unit: nothing bound, no tokens issued. -/
def freshVar (V : Type) : CtxVar V :=
  ⟨none, 0, []⟩

/-- Concrete flow run context `A` used in the resolver scenario. -/
def flowA : FlowRunContextData :=
  { start_time := 0, flow := 10, flow_run_id := 11, client := 12, executor := 13
    task_run_futures := [], subflow_states := [], sync_portal := none
    timeout_scope := none }

/-- Concrete task run context `B` used in the resolver scenario. -/
def taskB : TaskRunContextData :=
  { start_time := 1, task := 20, task_run_id := 21, flow_run_id := 11, client := 12 }

/-- Scenario of claim C2: on a fresh execution unit, enter FlowRunContext
`A`, enter TaskRunContext `B`, exit `B`, then resolve. -/
def c2Run : Except CtxError (TaskRunContextData ⊕ FlowRunContextData) :=
  match ((ContextInstance.mk taskB none).enter (freshVar _)).1.exit
      ((ContextInstance.mk taskB none).enter (freshVar _)).2 with
  | .ok tv =>
    get_run_context tv ((ContextInstance.mk flowA none).enter (freshVar _)).2
  | .error e => .error e

/-- Claim C2: whenever a TaskRunContext is bound, `get_run_context` returns
it (never the FlowRunContext, whatever the flow var holds); and in the
scenario enter FlowRunContext A, enter TaskRunContext B, exit B, the
resolver returns A. -/
theorem C2_task_precedence :
    (∀ (tv : CtxVar TaskRunContextData) (fv : CtxVar FlowRunContextData)
        (t : TaskRunContextData),
        tv.get = some t → get_run_context tv fv = .ok (Sum.inl t))
    ∧ c2Run = .ok (Sum.inr flowA) := by
  constructor
  · intro tv fv t h
    simp [get_run_context, h]
  · rfl

/-- Witness for C2 at a concrete binding state. -/
theorem C2_witness :
    get_run_context ⟨some taskB, 1, []⟩ ⟨some flowA, 1, []⟩ = .ok (Sum.inl taskB) :=
  C2_task_precedence.1 _ _ _ rfl

/-- Claim C3: the resolver fails exactly when neither var is bound; with
only a FlowRunContext bound it returns that FlowRunContext; with neither
bound it returns the `NoActiveRunError` error, not an empty value. -/
theorem C3_resolver_error_iff_unbound :
    (∀ (tv : CtxVar TaskRunContextData) (fv : CtxVar FlowRunContextData),
        resolverFailed (get_run_context tv fv) = true ↔
          tv.get = none ∧ fv.get = none)
    ∧ (∀ (tv : CtxVar TaskRunContextData) (fv : CtxVar FlowRunContextData)
        (f : FlowRunContextData),
        tv.get = none → fv.get = some f →
          get_run_context tv fv = .ok (Sum.inr f))
    ∧ (∀ (tv : CtxVar TaskRunContextData) (fv : CtxVar FlowRunContextData),
        tv.get = none → fv.get = none →
          get_run_context tv fv = .error .NoActiveRunError) := by
  refine ⟨?_, ?_, ?_⟩
  · intro tv fv
    cases htv : tv.get <;> cases hfv : fv.get <;>
      simp [get_run_context, resolverFailed, htv, hfv]
  · intro tv fv f htv hfv
    simp [get_run_context, htv, hfv]
  · intro tv fv htv hfv
    simp [get_run_context, htv, hfv]

/-- Witness for C3: on a fresh execution unit the resolver raises
`NoActiveRunError`. -/
theorem C3_witness :
    get_run_context (freshVar _) (freshVar _) = .error .NoActiveRunError :=
  C3_resolver_error_iff_unbound.2.2 _ _ rfl rfl

/-- Claim C5: `TagsContext.get` is total (its result type is
`TagsContextData`, never an optional); when the tags var is unbound it
returns an instance with empty `current_tags`, and when bound it returns the
bound instance. -/
theorem C5_tags_get_never_fails :
    (∀ s : CtxVar TagsContextData,
        s.get = none → TagsContext.get s = ⟨[]⟩)
    ∧ (∀ (s : CtxVar TagsContextData) (v : TagsContextData),
        s.get = some v → TagsContext.get s = v) := by
  constructor
  · intro s h
    simp [TagsContext.get, CtxVar.get] at h ⊢
    simp [h]
  · intro s v h
    simp [TagsContext.get, CtxVar.get] at h ⊢
    simp [h]

/-- Witness for C5: on a fresh execution unit the tags getter returns the
empty tag set. -/
theorem C5_witness :
    (TagsContext.get (freshVar _)).current_tags = [] := by
  have h := C5_tags_get_never_fails.1 (freshVar _) rfl
  rw [h]

/-! ### Claim C4: frozen models (`ContextModel.Config`) -/

/-- The pydantic `Config` options declared on `ContextModel` (inherited by
every concrete context class). -/
structure PydanticConfig where
  allow_mutation : Bool
  extra : String
deriving DecidableEq, Repr

/-- `ContextModel.Config`: `allow_mutation = False`, `extra = "forbid"`. -/
def ContextModel.Config : PydanticConfig :=
  { allow_mutation := false, extra := "forbid" }

/-- Pydantic construction under `ContextModel.Config`: with
`extra = "forbid"`, supplying any field name outside the declared field set
raises (the spec's `ConfigurationError` class). -/
def constructCtx (allowed provided : List String) : Except CtxError Unit :=
  if ∀ f ∈ provided, f ∈ allowed then .ok ()
  else if ContextModel.Config.extra = "forbid" then .error .ConfigurationError
  else .ok ()

/-- Pydantic `__setattr__` under `ContextModel.Config`: with
`allow_mutation = False` every post-construction assignment raises (the
spec's `ConfigurationError` class) before any write happens. -/
def setattrCtx (_field : String) : Except CtxError Unit :=
  if ContextModel.Config.allow_mutation then .ok () else .error .ConfigurationError

/-- Declared fields of `RunContext`. -/
def RunContext.fields : List String :=
  ["start_time"]

/-- Declared fields of `FlowRunContext`. -/
def FlowRunContext.fields : List String :=
  RunContext.fields ++
    ["flow", "flow_run_id", "client", "executor", "task_run_futures",
     "subflow_states", "sync_portal", "timeout_scope"]

/-- Declared fields of `TaskRunContext`. -/
def TaskRunContext.fields : List String :=
  RunContext.fields ++ ["task", "task_run_id", "flow_run_id", "client"]

/-- Declared fields of `TagsContext`. -/
def TagsContext.fields : List String :=
  ["current_tags"]

/-- Claim C4: for every context class, constructing with a field outside the
declared set fails with `ConfigurationError`, and every post-construction
field assignment fails with `ConfigurationError`; in particular each of the
four concrete classes rejects an unrecognized extra field. -/
theorem C4_frozen_models :
    (∀ (allowed provided : List String) (f : String),
        f ∈ provided → f ∉ allowed →
          constructCtx allowed provided = .error .ConfigurationError)
    ∧ (∀ f : String, setattrCtx f = .error .ConfigurationError)
    ∧ (∀ cls ∈ [RunContext.fields, FlowRunContext.fields,
          TaskRunContext.fields, TagsContext.fields],
        constructCtx cls (cls ++ ["bogus_extra_field"]) =
          .error .ConfigurationError) := by
  refine ⟨?_, ?_, ?_⟩
  · intro allowed provided f hf hnot
    have hall : ¬ ∀ g ∈ provided, g ∈ allowed := fun hAll => hnot (hAll f hf)
    simp [constructCtx, hall, ContextModel.Config]
  · intro f
    simp [setattrCtx, ContextModel.Config]
  · intro cls hcls
    simp only [List.mem_cons, List.not_mem_nil, or_false] at hcls
    rcases hcls with h | h | h | h <;> subst h <;> rfl

/-- Witness for C4: `FlowRunContext` rejects the unknown field `"zzz"` at
construction, and assigning `flow_run_id` after construction fails. -/
theorem C4_witness :
    constructCtx FlowRunContext.fields (FlowRunContext.fields ++ ["zzz"]) =
        .error .ConfigurationError
    ∧ setattrCtx "flow_run_id" = .error .ConfigurationError :=
  ⟨C4_frozen_models.1 FlowRunContext.fields (FlowRunContext.fields ++ ["zzz"])
      "zzz" (by decide) (by decide),
   C4_frozen_models.2.1 "flow_run_id"⟩

/-! ### Claim C6: out-of-order exit (corrected) -/

/-- Instance `A` entered first on a fresh tags var (token id 0). -/
def ooA : ContextInstance TagsContextData × CtxVar TagsContextData :=
  (ContextInstance.mk ⟨["a"]⟩ none).enter (freshVar _)

/-- Instance `B` entered second on the same var (token id 1, the most
recently issued token). -/
def ooB : ContextInstance TagsContextData × CtxVar TagsContextData :=
  ooA.1.enter ooA.2

/-- Counterexample to claim C6: after entering `A` then `B`, `A`'s stored
token (id 0) is not the most recently entered token for the var (that is
`B`'s, id 1, with `nextId = 2`), yet `A.__exit__` raises no error: the
reset succeeds and silently installs `A`'s saved value `none`, losing the
binding order.  Out-of-order exit is therefore tolerated, not detected. -/
theorem C6_counterexample :
    ooA.1.token = some ⟨0, none⟩
    ∧ ooB.2.nextId = 2
    ∧ ooA.1.exit ooB.2 = .ok ⟨none, 2, [0]⟩ :=
  ⟨rfl, rfl, rfl⟩

/-- Claim C6 as amended: `__exit__` raises exactly when its stored token has
already been consumed by an earlier reset; an out-of-order exit whose token
is distinct and unused is not detected — it succeeds and resets the var to
that token's saved value, whether or not the token is the most recent. -/
theorem C6_exit_detects_only_reuse :
    (∀ (s : CtxVar TagsContextData) (t : Token TagsContextData),
        (∃ e, s.reset t = .error e) ↔ t.id ∈ s.used)
    ∧ (∀ (s : CtxVar TagsContextData) (t : Token TagsContextData),
        t.id ∉ s.used →
          s.reset t = .ok ⟨t.oldValue, s.nextId, t.id :: s.used⟩) := by
  constructor
  · intro s t
    by_cases h : t.id ∈ s.used <;> simp [CtxVar.reset, h]
  · intro s t h
    simp [CtxVar.reset, h]

/-- Witness for C6 (amended): resetting with the non-topmost but unused
token id 0 while id 1 is the most recent succeeds. -/
theorem C6_witness :
    CtxVar.reset (⟨some ⟨["b"]⟩, 2, []⟩ : CtxVar TagsContextData) ⟨0, none⟩ =
      .ok ⟨none, 2, [0]⟩ :=
  C6_exit_detects_only_reuse.2 _ _ (by decide)

/-! ### Claim C7: `start_time` (corrected) -/

/-- A wall clock; `now` is the current reading and each observation
advances it (time passes between observations). -/
structure Clock where
  now : Nat
deriving DecidableEq, Repr

/-- `pendulum.now("UTC")`: read the clock. -/
def pendulum.now (c : Clock) : Nat × Clock :=
  (c.now, ⟨c.now + 1⟩)

/-- `RunContext(...)` construction: the `start_time` field default
`pendulum.now("UTC")` runs at construction time. -/
def RunContext.construct (c : Clock) : RunContextData × Clock :=
  ((⟨(pendulum.now c).1⟩ : RunContextData), (pendulum.now c).2)

/-- `FlowRunContext(...)` construction: `start_time` from the construction
clock, collections and optional handles at their declared defaults. -/
def FlowRunContext.construct (flow flow_run_id client executor : Nat)
    (c : Clock) : FlowRunContextData × Clock :=
  ({ start_time := (pendulum.now c).1, flow := flow, flow_run_id := flow_run_id
     client := client, executor := executor, task_run_futures := []
     subflow_states := [], sync_portal := none, timeout_scope := none },
   (pendulum.now c).2)

/-- `TaskRunContext(...)` construction: `start_time` from the construction
clock. -/
def TaskRunContext.construct (task task_run_id flow_run_id client : Nat)
    (c : Clock) : TaskRunContextData × Clock :=
  ({ start_time := (pendulum.now c).1, task := task, task_run_id := task_run_id
     flow_run_id := flow_run_id, client := client },
   (pendulum.now c).2)

/-- Counterexample to claim C7: a `RunContext` constructed when the clock
reads 0 and entered only after the clock has advanced to 2 carries
`start_time = 0`, not the clock reading at the moment of the enter — so
`start_time` does not record the moment of the `enter()` operation. -/
theorem C7_counterexample :
    (((ContextInstance.mk (RunContext.construct ⟨0⟩).1 none).enter
          (freshVar RunContextData)).1).value.start_time = 0
    ∧ (pendulum.now (RunContext.construct ⟨0⟩).2).2.now = 2
    ∧ (((ContextInstance.mk (RunContext.construct ⟨0⟩).1 none).enter
          (freshVar RunContextData)).1).value.start_time ≠
        (pendulum.now (RunContext.construct ⟨0⟩).2).2.now := by
  refine ⟨rfl, rfl, ?_⟩
  decide

/-- Claim C7 as amended: `start_time` is set exactly once, at construction
(by the field default reading the UTC clock); entering the context does not
start or modify the timer — `__enter__` leaves the instance's field data,
hence `start_time`, unchanged for every run-context class. -/
theorem C7_start_time_at_construction :
    (∀ c : Clock, (RunContext.construct c).1.start_time = c.now)
    ∧ (∀ (w x y z : Nat) (c : Clock),
        (FlowRunContext.construct w x y z c).1.start_time = c.now)
    ∧ (∀ (w x y z : Nat) (c : Clock),
        (TaskRunContext.construct w x y z c).1.start_time = c.now)
    ∧ (∀ (V : Type) (inst : ContextInstance V) (s : CtxVar V),
        ((inst.enter s).1).value = inst.value) := by
  exact ⟨fun _ => rfl, fun _ _ _ _ _ => rfl, fun _ _ _ _ _ => rfl,
    fun _ _ _ => rfl⟩

/-! ### Claim C8: re-entering the same instance -/

/-- Claim C8: entering the same instance twice overwrites the single
`__token` slot with the second token, so both exits run with the second
token; the first exit restores the var to the shadowing value itself (from
the second enter), not the pre-enter value, and the second exit fails with
a token-reuse error — the two exits cannot both restore. -/
theorem C8_double_enter_breaks_restore (v : TagsContextData)
    (s0 : CtxVar TagsContextData) (h : s0.inv) :
    ((((ContextInstance.mk v none).enter s0).1.enter
        (((ContextInstance.mk v none).enter s0).2)).1).token =
      some ⟨s0.nextId + 1, some v⟩
    ∧ ((((ContextInstance.mk v none).enter s0).1.enter
        (((ContextInstance.mk v none).enter s0).2)).1).exit
        ((((ContextInstance.mk v none).enter s0).1.enter
          (((ContextInstance.mk v none).enter s0).2)).2) =
        .ok ⟨some v, s0.nextId + 2, (s0.nextId + 1) :: s0.used⟩
    ∧ ((((ContextInstance.mk v none).enter s0).1.enter
        (((ContextInstance.mk v none).enter s0).2)).1).exit
        ⟨some v, s0.nextId + 2, (s0.nextId + 1) :: s0.used⟩ =
        .error .TokenReuseError := by
  have hnot : s0.nextId + 1 ∉ s0.used := by
    intro hmem
    have := h _ hmem
    omega
  refine ⟨rfl, ?_, ?_⟩
  · simp [ContextInstance.enter, ContextInstance.exit, CtxVar.set,
      CtxVar.reset, hnot]
  · simp [ContextInstance.enter, ContextInstance.exit, CtxVar.set,
      CtxVar.reset]

/-- Witness for C8 on a fresh tags var. -/
theorem C8_witness :
    (freshVar TagsContextData).inv
    ∧ ((((ContextInstance.mk (⟨["x"]⟩ : TagsContextData) none).enter
          (freshVar _)).1.enter
          (((ContextInstance.mk (⟨["x"]⟩ : TagsContextData) none).enter
            (freshVar _)).2)).1).exit
        ⟨some ⟨["x"]⟩, 2, [1]⟩ = .error .TokenReuseError :=
  ⟨by decide,
   (C8_double_enter_breaks_restore ⟨["x"]⟩ (freshVar _) (by decide)).2.2⟩

/-! ### Claim C10: `TagsContext.get` allocates without binding -/

/-- The tags var together with an allocation heap: `bound` is the var's
binding as a reference into `heap`, and each evaluation of `TagsContext()`
appends a fresh empty instance to `heap`. -/
structure TagsHeapState where
  bound : Option Nat
  heap : List TagsContextData
deriving DecidableEq, Repr

/-- `TagsContext.get()` with object identity made explicit:
`cls.__var__.get(TagsContext())` evaluates its default argument first,
allocating a fresh empty instance, then returns the bound reference if the
var is bound and the fresh reference otherwise.  The var itself is never
written. -/
def allocGet (s : TagsHeapState) : Nat × TagsHeapState :=
  (s.bound.getD s.heap.length, { s with heap := s.heap ++ [⟨[]⟩] })

/-- In-place mutation of the instance a reference points to (for example
`returned.current_tags.add("t")` on the returned default). -/
def heapWrite (s : TagsHeapState) (r : Nat) (v : TagsContextData) :
    TagsHeapState :=
  { s with heap := s.heap.set r v }

/-- Dereference a heap reference. -/
def heapRead (s : TagsHeapState) (r : Nat) : Option TagsContextData :=
  s.heap[r]?

/-- Appending an element and reading at the old length yields it. -/
theorem getElem_append_length (l : List α) (x : α) :
    (l ++ [x])[l.length]? = some x := by
  induction l with
  | nil => rfl
  | cons a t ih => simp [ih]

/-- Claim C10: `TagsContext.get` never writes the tags var; when the var is
unbound, successive calls return references to distinct fresh instances,
and mutating the instance behind a returned reference does not change what
a later call returns — the later call still yields a distinct reference to
an empty instance. -/
theorem C10_get_allocates_without_binding :
    (∀ s : TagsHeapState, (allocGet s).2.bound = s.bound)
    ∧ (∀ s : TagsHeapState, s.bound = none →
        (allocGet s).1 ≠ (allocGet (allocGet s).2).1)
    ∧ (∀ (s : TagsHeapState) (v : TagsContextData), s.bound = none →
        (allocGet (heapWrite (allocGet s).2 (allocGet s).1 v)).1 ≠
          (allocGet s).1
        ∧ heapRead (allocGet (heapWrite (allocGet s).2 (allocGet s).1 v)).2
            (allocGet (heapWrite (allocGet s).2 (allocGet s).1 v)).1 =
            some ⟨[]⟩) := by
  refine ⟨fun s => rfl, ?_, ?_⟩
  · intro s h
    simp [allocGet, h]
  · intro s v h
    constructor
    · simp [allocGet, heapWrite, h, List.length_set]
    · simp only [allocGet, heapWrite, heapRead, h, Option.getD_none]
      simp only [List.length_set, List.length_append, List.length_cons,
        List.length_nil]
      have := getElem_append_length
        ((s.heap ++ [(⟨[]⟩ : TagsContextData)]).set s.heap.length v)
        (⟨[]⟩ : TagsContextData)
      simpa [List.length_set] using this

/-- Witness for C10 starting from a fresh unbound state. -/
theorem C10_witness :
    (allocGet ⟨none, []⟩).1 ≠ (allocGet (allocGet ⟨none, []⟩).2).1 :=
  C10_get_allocates_without_binding.2.1 ⟨none, []⟩ rfl

/-! ### Claim C1: balanced nested enter/exit restores every context -/

/-- The per-execution-unit state of the three context vars the source
declares (`flow_run`, `task_run`, `tags`). -/
structure ExecState where
  flowVar : CtxVar FlowRunContextData
  taskVar : CtxVar TaskRunContextData
  tagsVar : CtxVar TagsContextData
deriving DecidableEq, Repr

/-- The bookkeeping invariant on all three vars. -/
def ExecState.inv (s : ExecState) : Prop :=
  s.flowVar.inv ∧ s.taskVar.inv ∧ s.tagsVar.inv

instance (s : ExecState) : Decidable s.inv := by
  unfold ExecState.inv; infer_instance

/-- A context value to be entered, tagged by its concrete class. -/
inductive CtxValue
  | flowV (f : FlowRunContextData)
  | taskV (t : TaskRunContextData)
  | tagsV (g : TagsContextData)
deriving DecidableEq, Repr

/-- Balanced programs of nested enter/exit on one execution unit:
`withCtx v body` models `with v: body` — a fresh `ContextModel` instance is
entered, the body runs, and `__exit__` runs on every path out of the body
(the scoped-acquisition guarantee of the `with` statement); `userRaise`
models user code raising an exception or being cancelled. -/
inductive Prog
  | skip
  | userRaise
  | seq (p q : Prog)
  | withCtx (v : CtxValue) (body : Prog)
deriving DecidableEq, Repr

/-- How running a program ends: normal completion, a propagating user
exception or cancellation, or a fatal context error (an `__exit__` whose
token reset raised). -/
inductive Outcome
  | normal
  | raised
  | fatal
deriving DecidableEq, Repr

/-- Run a balanced program.  Each `withCtx` enters a fresh instance, runs
the body, then always runs that instance's `__exit__`; a user exception
propagates out of `seq` but never skips an enclosing `__exit__`. -/
def execProg : Prog → ExecState → Outcome × ExecState
  | .skip, s => (.normal, s)
  | .userRaise, s => (.raised, s)
  | .seq p q, s =>
    match execProg p s with
    | (.normal, s1) => execProg q s1
    | (.raised, s1) => (.raised, s1)
    | (.fatal, s1) => (.fatal, s1)
  | .withCtx (.flowV f) body, s =>
    match execProg body
        { s with flowVar := ((ContextInstance.mk f none).enter s.flowVar).2 } with
    | (o, s2) =>
      match (((ContextInstance.mk f none).enter s.flowVar).1).exit s2.flowVar with
      | .ok fv => (o, { s2 with flowVar := fv })
      | .error _ => (.fatal, s2)
  | .withCtx (.taskV t) body, s =>
    match execProg body
        { s with taskVar := ((ContextInstance.mk t none).enter s.taskVar).2 } with
    | (o, s2) =>
      match (((ContextInstance.mk t none).enter s.taskVar).1).exit s2.taskVar with
      | .ok tv => (o, { s2 with taskVar := tv })
      | .error _ => (.fatal, s2)
  | .withCtx (.tagsV g) body, s =>
    match execProg body
        { s with tagsVar := ((ContextInstance.mk g none).enter s.tagsVar).2 } with
    | (o, s2) =>
      match (((ContextInstance.mk g none).enter s.tagsVar).1).exit s2.tagsVar with
      | .ok gv => (o, { s2 with tagsVar := gv })
      | .error _ => (.fatal, s2)

/-- The sequencing combinator (definitionally the `seq` case of
`execProg`). -/
def seqRun (r1 r2 : ExecState → Outcome × ExecState) (s : ExecState) :
    Outcome × ExecState :=
  match r1 s with
  | (.normal, s1) => r2 s1
  | (.raised, s1) => (.raised, s1)
  | (.fatal, s1) => (.fatal, s1)

/-- The `with`-statement combinator for the flow var (definitionally the
`withCtx (.flowV f)` case of `execProg`). -/
def withFlow (f : FlowRunContextData) (run : ExecState → Outcome × ExecState)
    (s : ExecState) : Outcome × ExecState :=
  match run { s with flowVar := ((ContextInstance.mk f none).enter s.flowVar).2 } with
  | (o, s2) =>
    match (((ContextInstance.mk f none).enter s.flowVar).1).exit s2.flowVar with
    | .ok fv => (o, { s2 with flowVar := fv })
    | .error _ => (.fatal, s2)

/-- The `with`-statement combinator for the task var. -/
def withTask (t : TaskRunContextData) (run : ExecState → Outcome × ExecState)
    (s : ExecState) : Outcome × ExecState :=
  match run { s with taskVar := ((ContextInstance.mk t none).enter s.taskVar).2 } with
  | (o, s2) =>
    match (((ContextInstance.mk t none).enter s.taskVar).1).exit s2.taskVar with
    | .ok tv => (o, { s2 with taskVar := tv })
    | .error _ => (.fatal, s2)

/-- The `with`-statement combinator for the tags var. -/
def withTags (g : TagsContextData) (run : ExecState → Outcome × ExecState)
    (s : ExecState) : Outcome × ExecState :=
  match run { s with tagsVar := ((ContextInstance.mk g none).enter s.tagsVar).2 } with
  | (o, s2) =>
    match (((ContextInstance.mk g none).enter s.tagsVar).1).exit s2.tagsVar with
    | .ok gv => (o, { s2 with tagsVar := gv })
    | .error _ => (.fatal, s2)

/-- Evolution relation on one var: running code only issues fresh token ids
and only consumes ids that either were already consumed or were issued
during the run. -/
def varEvol (a b : CtxVar V) : Prop :=
  a.nextId ≤ b.nextId ∧ ∀ id ∈ b.used, id ∈ a.used ∨ a.nextId ≤ id

theorem varEvol_refl (a : CtxVar V) : varEvol a a :=
  ⟨Nat.le_refl _, fun _ h => Or.inl h⟩

theorem varEvol_trans {a b c : CtxVar V} (h1 : varEvol a b) (h2 : varEvol b c) :
    varEvol a c := by
  refine ⟨Nat.le_trans h1.1 h2.1, fun id h => ?_⟩
  rcases h2.2 id h with h' | h'
  · exact h1.2 id h'
  · exact Or.inr (Nat.le_trans h1.1 h')

/-- Evolution relation on the whole execution-unit state. -/
def stateEvol (a b : ExecState) : Prop :=
  varEvol a.flowVar b.flowVar ∧ varEvol a.taskVar b.taskVar
    ∧ varEvol a.tagsVar b.tagsVar

theorem stateEvol_refl (s : ExecState) : stateEvol s s :=
  ⟨varEvol_refl _, varEvol_refl _, varEvol_refl _⟩

theorem stateEvol_trans {a b c : ExecState} (h1 : stateEvol a b)
    (h2 : stateEvol b c) : stateEvol a c :=
  ⟨varEvol_trans h1.1 h2.1, varEvol_trans h1.2.1 h2.2.1,
   varEvol_trans h1.2.2 h2.2.2⟩

/-- The full correctness property of a runner: the state evolves (fresh ids
only), and starting from an invariant state no `__exit__` ever fails, every
var's visible value is restored to what it was before, and the invariant is
preserved. -/
def execSpec (run : ExecState → Outcome × ExecState) : Prop :=
  ∀ s : ExecState,
    stateEvol s (run s).2
    ∧ (s.inv →
        (run s).1 ≠ .fatal
        ∧ (run s).2.flowVar.current = s.flowVar.current
        ∧ (run s).2.taskVar.current = s.taskVar.current
        ∧ (run s).2.tagsVar.current = s.tagsVar.current
        ∧ (run s).2.inv)

theorem seqRun_spec (r1 r2 : ExecState → Outcome × ExecState)
    (h1 : execSpec r1) (h2 : execSpec r2) : execSpec (seqRun r1 r2) := by
  intro s
  have ha := h1 s
  cases hr1 : r1 s with
  | mk o1 s1 =>
  rw [hr1] at ha
  cases o1 with
  | normal =>
    have hbb := h2 s1
    constructor
    · simp only [seqRun, hr1]
      exact stateEvol_trans ha.1 hbb.1
    · intro hs
      simp only [seqRun, hr1]
      have ha2 := ha.2 hs
      have hb2 := hbb.2 ha2.2.2.2.2
      refine ⟨hb2.1, ?_, ?_, ?_, hb2.2.2.2.2⟩
      · rw [hb2.2.1]; exact ha2.2.1
      · rw [hb2.2.2.1]; exact ha2.2.2.1
      · rw [hb2.2.2.2.1]; exact ha2.2.2.2.1
  | raised =>
    constructor
    · simp only [seqRun, hr1]
      exact ha.1
    · intro hs
      have ha2 := ha.2 hs
      simp only [seqRun, hr1]
      exact ⟨by decide, ha2.2.1, ha2.2.2.1, ha2.2.2.2.1, ha2.2.2.2.2⟩
  | fatal =>
    constructor
    · simp only [seqRun, hr1]
      exact ha.1
    · intro hs
      exact absurd rfl (ha.2 hs).1

theorem withFlow_spec (f : FlowRunContextData)
    (run : ExecState → Outcome × ExecState) (hrun : execSpec run) :
    execSpec (withFlow f run) := by
  intro s
  have hb := hrun { s with flowVar := ⟨some f, s.flowVar.nextId + 1, s.flowVar.used⟩ }
  simp only [withFlow, ContextInstance.enter, CtxVar.set, ContextInstance.exit,
    CtxVar.reset]
  cases h2 : run { s with flowVar := ⟨some f, s.flowVar.nextId + 1, s.flowVar.used⟩ } with
  | mk o s2 =>
  rw [h2] at hb
  dsimp only
  have henter : varEvol s.flowVar
      (⟨some f, s.flowVar.nextId + 1, s.flowVar.used⟩ : CtxVar FlowRunContextData) :=
    ⟨Nat.le_succ _, fun _ h => Or.inl h⟩
  have hbody : varEvol s.flowVar s2.flowVar := varEvol_trans henter hb.1.1
  by_cases hmem : s.flowVar.nextId ∈ s2.flowVar.used
  · rw [if_pos hmem]
    dsimp only
    constructor
    · exact ⟨hbody, hb.1.2.1, hb.1.2.2⟩
    · intro hs
      exfalso
      rcases hb.1.1.2 _ hmem with h | h
      · exact absurd (hs.1 _ h) (Nat.lt_irrefl _)
      · exact absurd h (Nat.not_succ_le_self _)
  · rw [if_neg hmem]
    dsimp only
    constructor
    · refine ⟨⟨Nat.le_of_succ_le hb.1.1.1, fun id hid => ?_⟩, hb.1.2.1, hb.1.2.2⟩
      rcases List.mem_cons.mp hid with h | h
      · exact Or.inr (Nat.le_of_eq h.symm)
      · rcases hb.1.1.2 id h with h' | h'
        · exact Or.inl h'
        · exact Or.inr (Nat.le_trans (Nat.le_succ _) h')
    · intro hs
      have hs1 : ExecState.inv
          { s with flowVar := ⟨some f, s.flowVar.nextId + 1, s.flowVar.used⟩ } := by
        refine ⟨fun id hid => ?_, hs.2.1, hs.2.2⟩
        exact Nat.lt_succ_of_lt (hs.1 id hid)
      have hbr := hb.2 hs1
      refine ⟨hbr.1, rfl, hbr.2.2.1, hbr.2.2.2.1, fun id hid => ?_,
        hbr.2.2.2.2.2.1, hbr.2.2.2.2.2.2⟩
      rcases List.mem_cons.mp hid with h | h
      · rw [h]
        exact Nat.lt_of_succ_le hb.1.1.1
      · exact hbr.2.2.2.2.1 id h

theorem withTask_spec (t : TaskRunContextData)
    (run : ExecState → Outcome × ExecState) (hrun : execSpec run) :
    execSpec (withTask t run) := by
  intro s
  have hb := hrun { s with taskVar := ⟨some t, s.taskVar.nextId + 1, s.taskVar.used⟩ }
  simp only [withTask, ContextInstance.enter, CtxVar.set, ContextInstance.exit,
    CtxVar.reset]
  cases h2 : run { s with taskVar := ⟨some t, s.taskVar.nextId + 1, s.taskVar.used⟩ } with
  | mk o s2 =>
  rw [h2] at hb
  dsimp only
  have henter : varEvol s.taskVar
      (⟨some t, s.taskVar.nextId + 1, s.taskVar.used⟩ : CtxVar TaskRunContextData) :=
    ⟨Nat.le_succ _, fun _ h => Or.inl h⟩
  have hbody : varEvol s.taskVar s2.taskVar := varEvol_trans henter hb.1.2.1
  by_cases hmem : s.taskVar.nextId ∈ s2.taskVar.used
  · rw [if_pos hmem]
    dsimp only
    constructor
    · exact ⟨hb.1.1, hbody, hb.1.2.2⟩
    · intro hs
      exfalso
      rcases hb.1.2.1.2 _ hmem with h | h
      · exact absurd (hs.2.1 _ h) (Nat.lt_irrefl _)
      · exact absurd h (Nat.not_succ_le_self _)
  · rw [if_neg hmem]
    dsimp only
    constructor
    · refine ⟨hb.1.1, ⟨Nat.le_of_succ_le hb.1.2.1.1, fun id hid => ?_⟩, hb.1.2.2⟩
      rcases List.mem_cons.mp hid with h | h
      · exact Or.inr (Nat.le_of_eq h.symm)
      · rcases hb.1.2.1.2 id h with h' | h'
        · exact Or.inl h'
        · exact Or.inr (Nat.le_trans (Nat.le_succ _) h')
    · intro hs
      have hs1 : ExecState.inv
          { s with taskVar := ⟨some t, s.taskVar.nextId + 1, s.taskVar.used⟩ } := by
        refine ⟨hs.1, fun id hid => ?_, hs.2.2⟩
        exact Nat.lt_succ_of_lt (hs.2.1 id hid)
      have hbr := hb.2 hs1
      refine ⟨hbr.1, hbr.2.1, rfl, hbr.2.2.2.1, hbr.2.2.2.2.1, fun id hid => ?_,
        hbr.2.2.2.2.2.2⟩
      rcases List.mem_cons.mp hid with h | h
      · rw [h]
        exact Nat.lt_of_succ_le hb.1.2.1.1
      · exact hbr.2.2.2.2.2.1 id h

theorem withTags_spec (g : TagsContextData)
    (run : ExecState → Outcome × ExecState) (hrun : execSpec run) :
    execSpec (withTags g run) := by
  intro s
  have hb := hrun { s with tagsVar := ⟨some g, s.tagsVar.nextId + 1, s.tagsVar.used⟩ }
  simp only [withTags, ContextInstance.enter, CtxVar.set, ContextInstance.exit,
    CtxVar.reset]
  cases h2 : run { s with tagsVar := ⟨some g, s.tagsVar.nextId + 1, s.tagsVar.used⟩ } with
  | mk o s2 =>
  rw [h2] at hb
  dsimp only
  have henter : varEvol s.tagsVar
      (⟨some g, s.tagsVar.nextId + 1, s.tagsVar.used⟩ : CtxVar TagsContextData) :=
    ⟨Nat.le_succ _, fun _ h => Or.inl h⟩
  have hbody : varEvol s.tagsVar s2.tagsVar := varEvol_trans henter hb.1.2.2
  by_cases hmem : s.tagsVar.nextId ∈ s2.tagsVar.used
  · rw [if_pos hmem]
    dsimp only
    constructor
    · exact ⟨hb.1.1, hb.1.2.1, hbody⟩
    · intro hs
      exfalso
      rcases hb.1.2.2.2 _ hmem with h | h
      · exact absurd (hs.2.2 _ h) (Nat.lt_irrefl _)
      · exact absurd h (Nat.not_succ_le_self _)
  · rw [if_neg hmem]
    dsimp only
    constructor
    · refine ⟨hb.1.1, hb.1.2.1, Nat.le_of_succ_le hb.1.2.2.1, fun id hid => ?_⟩
      rcases List.mem_cons.mp hid with h | h
      · exact Or.inr (Nat.le_of_eq h.symm)
      · rcases hb.1.2.2.2 id h with h' | h'
        · exact Or.inl h'
        · exact Or.inr (Nat.le_trans (Nat.le_succ _) h')
    · intro hs
      have hs1 : ExecState.inv
          { s with tagsVar := ⟨some g, s.tagsVar.nextId + 1, s.tagsVar.used⟩ } := by
        refine ⟨hs.1, hs.2.1, fun id hid => ?_⟩
        exact Nat.lt_succ_of_lt (hs.2.2 id hid)
      have hbr := hb.2 hs1
      refine ⟨hbr.1, hbr.2.1, hbr.2.2.1, rfl, hbr.2.2.2.2.1, hbr.2.2.2.2.2.1,
        fun id hid => ?_⟩
      rcases List.mem_cons.mp hid with h | h
      · rw [h]
        exact Nat.lt_of_succ_le hb.1.2.2.1
      · exact hbr.2.2.2.2.2.2 id h

/-- Every balanced program satisfies the full runner spec. -/
theorem execProg_spec (p : Prog) : execSpec (execProg p) := by
  induction p with
  | skip =>
    intro s
    exact ⟨stateEvol_refl s, fun hs => ⟨fun h => Outcome.noConfusion h, rfl, rfl, rfl, hs⟩⟩
  | userRaise =>
    intro s
    exact ⟨stateEvol_refl s, fun hs => ⟨fun h => Outcome.noConfusion h, rfl, rfl, rfl, hs⟩⟩
  | seq p q ihp ihq =>
    exact seqRun_spec (execProg p) (execProg q) ihp ihq
  | withCtx v body ih =>
    cases v with
    | flowV f => exact withFlow_spec f (execProg body) ih
    | taskV t => exact withTask_spec t (execProg body) ih
    | tagsV g => exact withTags_spec g (execProg body) ih

/-- Claim C1: for any balanced program of nested enter/exit on one
execution unit starting from a state satisfying the token bookkeeping
invariant (in particular any fresh execution unit), after all exits have
run, `get()` for every context type returns exactly the value visible
before the first enter — and this holds on every exit path: the final
outcome may be a propagated user exception or cancellation (`raised`), but
never a failed restore (`fatal`), and every var's visible value is back to
its initial one. -/
theorem C1_balanced_restore (p : Prog) (s : ExecState) (h : s.inv) :
    (execProg p s).1 ≠ .fatal
    ∧ (execProg p s).2.flowVar.get = s.flowVar.get
    ∧ (execProg p s).2.taskVar.get = s.taskVar.get
    ∧ (execProg p s).2.tagsVar.get = s.tagsVar.get := by
  have hspec := (execProg_spec p s).2 h
  exact ⟨hspec.1, hspec.2.1, hspec.2.2.1, hspec.2.2.2.1⟩

/-- Nested program used for the C1 witness: a flow run containing a task
run whose body raises, followed by a tag scope. -/
def progW : Prog :=
  .withCtx (.flowV flowA)
    (.seq (.withCtx (.taskV taskB) .userRaise)
      (.withCtx (.tagsV ⟨["t"]⟩) .skip))

/-- Initial state for the C1 witness: an outer flow context is already
visible and one token has been consumed earlier. -/
def stW : ExecState :=
  ⟨⟨some flowA, 3, [2]⟩, freshVar _, freshVar _⟩

/-- Witness for C1: running the nested program on `stW` restores all three
vars and produces no fatal outcome. -/
theorem C1_witness :
    ExecState.inv stW
    ∧ ((execProg progW stW).1 ≠ .fatal
      ∧ (execProg progW stW).2.flowVar.get = stW.flowVar.get
      ∧ (execProg progW stW).2.taskVar.get = stW.taskVar.get
      ∧ (execProg progW stW).2.tagsVar.get = stW.tagsVar.get) :=
  ⟨by decide, C1_balanced_restore progW stW (by decide)⟩

end PrefectCtx
